import Mathlib

set_option maxRecDepth 10000

/-!
Verification of the ytgrab pipeline (src/ytgrab.py): a shallow embedding of
the dependency probe, the filename sanitizer, the metadata fetch, the audio
acquisition command construction and artifact resolution, the metadata
reporter, and the CLI sequencing, together with theorems about the
properties stated in spec.md.

Strings are embedded either as Lean String values (opaque tokens such as
command-line flags and printed lines) or as List Char (where the Python code
works character by character). External subprocess outcomes (yt-dlp, ffmpeg,
ffprobe, the filesystem) are inputs to the embedded functions; the observable
behaviour of the program is a list of effects (prints, directory creation,
process invocations, exits).
-/

namespace Ytgrab

/-! ## Filename sanitizer (src/ytgrab.py, sanitize_filename, lines 47-55) -/

/-- Characters removed by the regex character class in line 50 of the source:
the characters invalid in Windows filenames. -/
def invalidChars : List Char := ['<', '>', ':', '"', '/', '\\', '|', '?', '*']

/-- Embedding of re.sub applied with the invalid-character class and an empty
replacement: every occurrence of an invalid character is deleted. -/
def removeInvalid (s : List Char) : List Char :=
  s.filter (fun c => !invalidChars.contains c)

/-- The characters stripped from both ends by the Python call strip with
argument dot-space. -/
def isStripChar (c : Char) : Bool := c == '.' || c == ' '

/-- Embedding of the Python str.strip call with the two characters dot and
space: remove such characters from the front, then from the back. -/
def pyStrip (s : List Char) : List Char :=
  ((s.dropWhile isStripChar).reverse.dropWhile isStripChar).reverse

/-- Embedding of sanitize_filename (source lines 47-55): delete the invalid
characters, strip leading and trailing dots and spaces, and truncate to 200
characters when longer. -/
def sanitize_filename (s : List Char) : List Char :=
  let sanitized := removeInvalid s
  let stripped := pyStrip sanitized
  if stripped.length > 200 then stripped.take 200 else stripped

/-- Output contains no character of the invalid class. -/
def noInvalid (s : List Char) : Bool := s.all (fun c => !invalidChars.contains c)

/-- The first character, when there is one, is not a dot or a space. -/
def headOk (s : List Char) : Bool :=
  match s with
  | [] => true
  | c :: _ => !isStripChar c

/-- The last character, when there is one, is not a dot or a space. -/
def lastOk (s : List Char) : Bool :=
  match s.getLast? with
  | none => true
  | some c => !isStripChar c

/-! Helper lemmas about dropWhile and pyStrip. -/

theorem head_false_of_dropWhile {α} {p : α → Bool} :
    ∀ {l : List α} {c : α} {r : List α}, l.dropWhile p = c :: r → p c = false := by
  intro l
  induction l with
  | nil => intro c r h; simp [List.dropWhile] at h
  | cons a t ih =>
    intro c r h
    rw [List.dropWhile_cons] at h
    by_cases hp : p a = true
    · rw [if_pos hp] at h; exact ih h
    · rw [if_neg hp] at h
      cases h
      exact Bool.eq_false_iff.mpr hp

theorem dropWhile_eq_self_of_head {α} {p : α → Bool} {l : List α}
    (h : ∀ c r, l = c :: r → p c = false) : l.dropWhile p = l := by
  cases l with
  | nil => rfl
  | cons a t => rw [List.dropWhile_cons, if_neg (by simp [h a t rfl])]

theorem getLast?_dropWhile {α} {p : α → Bool} :
    ∀ {l : List α}, l.dropWhile p ≠ [] → (l.dropWhile p).getLast? = l.getLast? := by
  intro l
  induction l with
  | nil => intro h; simp [List.dropWhile] at h
  | cons a t ih =>
    intro h
    rw [List.dropWhile_cons]
    by_cases hp : p a = true
    · rw [List.dropWhile_cons, if_pos hp] at h
      rw [if_pos hp, ih h]
      cases t with
      | nil => simp [List.dropWhile] at h
      | cons b r => rw [List.getLast?_cons_cons]
    · rw [if_neg hp]

theorem pyStrip_head_false {s : List Char} {c : Char} {r : List Char}
    (h : pyStrip s = c :: r) : isStripChar c = false := by
  unfold pyStrip at h
  have hne : ((s.dropWhile isStripChar).reverse.dropWhile isStripChar) ≠ [] := by
    intro he
    rw [he] at h
    simp at h
  have h1 : ((s.dropWhile isStripChar).reverse.dropWhile isStripChar).reverse.head? =
      some c := by rw [h]; rfl
  rw [List.head?_reverse] at h1
  rw [getLast?_dropWhile hne, List.getLast?_reverse] at h1
  cases hu : (s.dropWhile isStripChar) with
  | nil => rw [hu] at h1; simp at h1
  | cons d u =>
    rw [hu] at h1
    simp at h1
    subst h1
    exact head_false_of_dropWhile hu

theorem pyStrip_getLast?_false {s : List Char} {c : Char}
    (h : (pyStrip s).getLast? = some c) : isStripChar c = false := by
  unfold pyStrip at h
  rw [List.getLast?_reverse] at h
  cases ht : ((s.dropWhile isStripChar).reverse.dropWhile isStripChar) with
  | nil => rw [ht] at h; simp at h
  | cons d u =>
    rw [ht] at h
    simp at h
    subst h
    exact head_false_of_dropWhile ht

theorem pyStrip_sublist (s : List Char) : (pyStrip s).Sublist s := by
  unfold pyStrip
  have h1 : ((s.dropWhile isStripChar).reverse.dropWhile isStripChar).Sublist
      (s.dropWhile isStripChar).reverse := List.dropWhile_sublist _
  have h2 := h1.reverse
  rw [List.reverse_reverse] at h2
  exact h2.trans (List.dropWhile_sublist _)

theorem pyStrip_idem (s : List Char) : pyStrip (pyStrip s) = pyStrip s := by
  have hdrop : (pyStrip s).dropWhile isStripChar = pyStrip s :=
    dropWhile_eq_self_of_head (fun c r h => pyStrip_head_false h)
  show (((pyStrip s).dropWhile isStripChar).reverse.dropWhile isStripChar).reverse = pyStrip s
  rw [hdrop]
  have hlast : (pyStrip s).reverse.dropWhile isStripChar = (pyStrip s).reverse := by
    apply dropWhile_eq_self_of_head
    intro c r h
    apply pyStrip_getLast?_false (s := s)
    rw [← List.head?_reverse, h]
    rfl
  rw [hlast, List.reverse_reverse]

/-- Every character of the sanitized output survives from the filtered string. -/
theorem sanitize_sublist_removeInvalid (s : List Char) :
    (sanitize_filename s).Sublist (removeInvalid s) := by
  unfold sanitize_filename
  by_cases h : (pyStrip (removeInvalid s)).length > 200
  · simp only [if_pos h]
    exact (List.take_sublist _ _).trans (pyStrip_sublist _)
  · simp only [if_neg h]
    exact pyStrip_sublist _

theorem headOk_take (n : Nat) (l : List Char) (hn : n ≠ 0) : headOk (l.take n) = headOk l := by
  cases l with
  | nil => simp
  | cons c r =>
    cases n with
    | zero => exact absurd rfl hn
    | succ m => simp [List.take_succ_cons, headOk]

/-- A title whose sanitization truncates in front of an interior space: the
199 characters a, then a space, then b. -/
def cexName : List Char := List.replicate 199 'a' ++ [' ', 'b']

/-- C4: the claim as stated is false: on cexName the sanitized output ends in
a space, because the truncation to 200 characters cuts right after an
interior space that the strip step never saw at the end. -/
theorem C4_counterexample :
    ¬(noInvalid (sanitize_filename cexName) = true ∧
      (sanitize_filename cexName).length ≤ 200 ∧
      headOk (sanitize_filename cexName) = true ∧
      lastOk (sanitize_filename cexName) = true) := by
  decide

/-- C4 (amended): for every input the sanitizer output contains none of the
nine invalid characters, has length at most 200, and has no leading dot or
space; it also has no trailing dot or space whenever the stripped,
character-filtered form has length at most 200 (that is, whenever the final
truncation does not cut the string). -/
theorem C4_sanitizer_output (s : List Char) :
    noInvalid (sanitize_filename s) = true ∧
    (sanitize_filename s).length ≤ 200 ∧
    headOk (sanitize_filename s) = true ∧
    ((pyStrip (removeInvalid s)).length ≤ 200 → lastOk (sanitize_filename s) = true) := by
  refine ⟨?_, ?_, ?_, ?_⟩
  · rw [noInvalid, List.all_eq_true]
    intro c hc
    have hmem : c ∈ removeInvalid s := (sanitize_sublist_removeInvalid s).subset hc
    exact (List.mem_filter.mp hmem).2
  · unfold sanitize_filename
    by_cases h : (pyStrip (removeInvalid s)).length > 200
    · simp only [if_pos h, List.length_take]
      omega
    · simp only [if_neg h]
      omega
  · unfold sanitize_filename
    by_cases h : (pyStrip (removeInvalid s)).length > 200
    · simp only [if_pos h]
      rw [headOk_take 200 _ (by decide)]
      cases hst : pyStrip (removeInvalid s) with
      | nil => simp [headOk]
      | cons c r => simp [headOk, pyStrip_head_false hst]
    · simp only [if_neg h]
      cases hst : pyStrip (removeInvalid s) with
      | nil => simp [headOk]
      | cons c r => simp [headOk, pyStrip_head_false hst]
  · intro h
    unfold sanitize_filename
    rw [if_neg (by omega)]
    rw [lastOk]
    cases hlast : (pyStrip (removeInvalid s)).getLast? with
    | none => rfl
    | some c => simp [pyStrip_getLast?_false hlast]

/-- C3: the claim as stated is false: sanitizing cexName once yields the 199
characters a followed by a space, and sanitizing that again strips the newly
exposed trailing space, so the second application differs from the first. -/
theorem C3_counterexample :
    sanitize_filename (sanitize_filename cexName) ≠ sanitize_filename cexName := by
  decide

/-- C3 (amended): the sanitizer is idempotent on every input whose stripped,
character-filtered form has length at most 200, that is, on every input where
the final truncation does not cut the string. -/
theorem C3_sanitizer_idempotent (s : List Char)
    (h : (pyStrip (removeInvalid s)).length ≤ 200) :
    sanitize_filename (sanitize_filename s) = sanitize_filename s := by
  have h1 : sanitize_filename s = pyStrip (removeInvalid s) := by
    unfold sanitize_filename
    rw [if_neg (by omega)]
  have hrm : removeInvalid (pyStrip (removeInvalid s)) = pyStrip (removeInvalid s) := by
    apply List.filter_eq_self.mpr
    intro a ha
    exact (List.mem_filter.mp ((pyStrip_sublist (removeInvalid s)).subset ha)).2
  rw [h1]
  simp only [sanitize_filename]
  rw [hrm, pyStrip_idem, if_neg (by omega)]

/-- C3 witness: the amended idempotence theorem applied at a concrete short
input. -/
theorem C3_sanitizer_idempotent_witness :
    (pyStrip (removeInvalid ['a', 'b', '/', 'c'])).length ≤ 200 ∧
    sanitize_filename (sanitize_filename ['a', 'b', '/', 'c']) =
      sanitize_filename ['a', 'b', '/', 'c'] :=
  ⟨by decide, C3_sanitizer_idempotent ['a', 'b', '/', 'c'] (by decide)⟩

/-! ## Artifact resolution (src/ytgrab.py, download_audio, lines 145-152) -/

/-- A file of the output directory as the resolution step sees it: its name
and its modification time (st_mtime). -/
structure FileEntry where
  name : String
  mtime : Nat
deriving DecidableEq

/-- The glob pattern star-dot-mp3 of line 146: a name matches when it ends in
the four characters dot m p 3. -/
def isMp3 (f : FileEntry) : Bool := List.isSuffixOf ['.', 'm', 'p', '3'] f.name.data

/-- Embedding of list(output_dir.glob("*.mp3")) over a directory listing. -/
def globMp3 (dir : List FileEntry) : List FileEntry := dir.filter isMp3

/-- Embedding of Python max with the st_mtime key over a nonempty list:
max keeps the current element on ties, replacing it only when a later
element's key is strictly greater. -/
def maxByMtime (f : FileEntry) (fs : List FileEntry) : FileEntry :=
  fs.foldl (fun acc x => if x.mtime > acc.mtime then x else acc) f

/-- The two fatal outcomes of download_audio after the external call. -/
inductive AcquireError where
  | processFailed
  | artifactNotFound
deriving DecidableEq

/-- Embedding of lines 145-152: list the mp3 files; if none, fail with the
artifact-not-found error (the code prints an error and exits 1); otherwise
return the most recently modified one. -/
def resolve_artifact (dir : List FileEntry) : Except AcquireError FileEntry :=
  match globMp3 dir with
  | [] => .error .artifactNotFound
  | f :: fs => .ok (maxByMtime f fs)

theorem maxByMtime_mem_le (f : FileEntry) (fs : List FileEntry) :
    maxByMtime f fs ∈ f :: fs ∧ ∀ g ∈ f :: fs, g.mtime ≤ (maxByMtime f fs).mtime := by
  induction fs generalizing f with
  | nil => exact ⟨List.mem_singleton.mpr rfl, by intro g hg; rw [List.mem_singleton.mp hg]; rfl⟩
  | cons x xs ih =>
    have hstep : maxByMtime f (x :: xs) = maxByMtime (if x.mtime > f.mtime then x else f) xs := rfl
    rcases ih (if x.mtime > f.mtime then x else f) with ⟨hmem, hle⟩
    constructor
    · rw [hstep]
      rcases List.mem_cons.mp hmem with h | h
      · rw [h]
        by_cases hx : x.mtime > f.mtime
        · simp only [if_pos hx]
          exact List.mem_cons_of_mem _ (List.mem_cons_self _ _)
        · simp only [if_neg hx]
          exact List.mem_cons_self _ _
      · exact List.mem_cons_of_mem _ (List.mem_cons_of_mem _ h)
    · intro g hg
      rw [hstep]
      rcases List.mem_cons.mp hg with h | h
      · subst h
        have := hle _ (List.mem_cons_self _ _)
        by_cases hx : x.mtime > g.mtime
        · have h2 := hle _ (List.mem_cons_self _ _)
          rw [if_pos hx] at h2 ⊢
          omega
        · rw [if_neg hx] at this ⊢
          exact this
      · rcases List.mem_cons.mp h with h2 | h2
        · subst h2
          have h3 := hle _ (List.mem_cons_self _ _)
          by_cases hx : g.mtime > f.mtime
          · rw [if_pos hx] at h3 ⊢
            exact h3
          · rw [if_neg hx] at h3 ⊢
            omega
        · exact hle _ (List.mem_cons_of_mem _ h2)

/-- C1: over a directory whose mp3 files all have distinct modification
times, the resolution step after a successful external call fails with
artifact-not-found exactly when there is no mp3 file, and otherwise returns
the mp3 file that is strictly newer than every other mp3 file. -/
theorem C1_artifact_resolution (dir : List FileEntry)
    (hdist : (globMp3 dir).Pairwise (fun a b => a.mtime ≠ b.mtime)) :
    (globMp3 dir = [] → resolve_artifact dir = .error .artifactNotFound) ∧
    (globMp3 dir ≠ [] → ∃ f, resolve_artifact dir = .ok f ∧ f ∈ globMp3 dir ∧
      ∀ g ∈ globMp3 dir, g ≠ f → g.mtime < f.mtime) := by
  constructor
  · intro h
    rw [resolve_artifact, h]
  · intro h
    cases hg : globMp3 dir with
    | nil => exact absurd hg h
    | cons f fs =>
      refine ⟨maxByMtime f fs, ?_, ?_, ?_⟩
      · rw [resolve_artifact, hg]
      · exact (maxByMtime_mem_le f fs).1
      · intro g hgmem hne
        rw [hg] at hdist
        have hle := (maxByMtime_mem_le f fs).2 g hgmem
        have hmem := (maxByMtime_mem_le f fs).1
        have hsymm : Symmetric (fun a b : FileEntry => a.mtime ≠ b.mtime) :=
          fun a b hab => Ne.symm hab
        have hneq := hdist.forall hsymm hgmem hmem hne
        omega

/-- A concrete output directory: two mp3 files with distinct modification
times and one unrelated file. -/
def dirExample : List FileEntry :=
  [⟨"a.mp3", 3⟩, ⟨"notes.txt", 50⟩, ⟨"b.mp3", 7⟩]

/-- C1 witness: the resolution theorem applied to the concrete directory,
with its hypotheses discharged there. -/
theorem C1_artifact_resolution_witness :
    (globMp3 dirExample).Pairwise (fun a b => a.mtime ≠ b.mtime) ∧
    (globMp3 dirExample ≠ [] → ∃ f, resolve_artifact dirExample = .ok f ∧
      f ∈ globMp3 dirExample ∧
      ∀ g ∈ globMp3 dirExample, g ≠ f → g.mtime < f.mtime) :=
  ⟨by decide, (C1_artifact_resolution dirExample (by decide)).2⟩

/-! ## Observable effects of a run -/

/-- One observable step of the program: a printed line, a directory
creation, a subprocess invocation, or a process exit. -/
inductive Effect where
  | print (line : String)
  | mkdir (dir : String)
  | run (cmd : List String)
  | exit (code : Nat)
deriving DecidableEq

/-! ## Dependency probe (src/ytgrab.py, check_dependencies, lines 23-44) -/

/-- Embedding of check_dependencies over the outcomes of the two version
queries: collect the names of the tools whose query raised, in source order;
exit with the list when it is nonempty (the code prints the list and calls
sys.exit 1), return unit otherwise. -/
def check_dependencies (ytdlp_ok ffmpeg_ok : Bool) : Except (List String) Unit :=
  let missing := (if ytdlp_ok then [] else ["yt-dlp"]) ++
    (if ffmpeg_ok then [] else ["ffmpeg"])
  if missing.isEmpty then .ok () else .error missing

/-- The lines check_dependencies prints before exiting when tools are
missing (lines 38-43). -/
def deps_fail_prints (missing : List String) : List Effect :=
  [.print ("[ERROR] Missing dependencies: " ++ String.intercalate ", " missing),
   .print "\nInstall them with:"] ++
  (if missing.contains "yt-dlp" then [.print "  pip install yt-dlp"] else []) ++
  (if missing.contains "ffmpeg"
    then [.print "  Download from https://ffmpeg.org/download.html"] else [])

/-! ## Metadata record and fetch (src/ytgrab.py, get_video_info, lines 58-77) -/

/-- The fields of the yt-dlp metadata record that main reads, each optional:
no schema is enforced and main supplies a default per key. The view count is
a number when present. -/
structure Info where
  title : Option String
  channel : Option String
  uploader : Option String
  duration_string : Option String
  upload_date : Option String
  view_count : Option Nat
  description : Option String
deriving DecidableEq

/-- Outcome of the yt-dlp metadata subprocess at the boundary: the process
exited nonzero with the given error-stream text, or it succeeded and its
standard output either fails to parse as JSON or parses to a record. -/
inductive FetchOutcome where
  | procFail (stderr : String)
  | malformed (stdout : String)
  | parsed (info : Info)
deriving DecidableEq

/-- The metadata fetch invocation of lines 62-67. -/
def fetch_cmd (url : String) : List String :=
  ["yt-dlp", "--dump-json", "--no-download", url]

/-- Embedding of get_video_info: the effects it performs and the record it
returns. On a nonzero exit it prints the error-stream text and exits 1; on
unparseable output it prints a distinct parse-error line and exits 1. -/
def get_video_info_trace (url : String) (r : FetchOutcome) :
    List Effect × Option Info :=
  let pre := [Effect.print "[INFO] Fetching video metadata...",
    Effect.run (fetch_cmd url)]
  match r with
  | .procFail stderr =>
      (pre ++ [.print ("[ERROR] Failed to fetch video info: " ++ stderr), .exit 1], none)
  | .malformed _ =>
      (pre ++ [.print "[ERROR] Failed to parse video metadata", .exit 1], none)
  | .parsed info => (pre, some info)

/-! ## Acquisition command construction (src/ytgrab.py, download_audio,
lines 95-136) -/

/-- Python list.insert at a nonnegative index: past the end it appends. -/
def insertAt {α : Type} : Nat → α → List α → List α
  | 0, x, l => x :: l
  | _ + 1, x, [] => [x]
  | n + 1, x, a :: l => a :: insertAt n x l

/-- The output template of line 98: the output directory joined with the
yt-dlp title-dot-extension template. -/
def output_template (output_dir : String) : String :=
  output_dir ++ "/" ++ "%(title)s.%(ext)s"

/-- The base invocation list of lines 100-128, before the two conditional
insertions. -/
def base_cmd (url output_dir quality : String) : List String :=
  ["yt-dlp", "-x", "--audio-format", "mp3", "--audio-quality", quality ++ "K",
   "--embed-thumbnail", "--embed-metadata", "--add-metadata",
   "--parse-metadata", "%(title)s:%(meta_title)s",
   "--parse-metadata", "%(uploader)s:%(meta_artist)s",
   "--parse-metadata", "%(channel)s:%(meta_album_artist)s",
   "--convert-thumbnails", "jpg",
   "-o", output_template output_dir,
   "--no-overwrites", url]

/-- Embedding of the command construction of download_audio: the base list,
then insert write-thumbnail before the last element (the url) when the
thumbnail is kept (line 131, Python insert at index -1), then insert the
quiet and progress flags at indices 1 and 2 when not verbose (lines
133-135). -/
def download_cmd (url output_dir quality : String)
    (keep_thumbnail verbose : Bool) : List String :=
  let cmd := base_cmd url output_dir quality
  let cmd := if keep_thumbnail then insertAt (cmd.length - 1) "--write-thumbnail" cmd else cmd
  let cmd := if !verbose then insertAt 2 "--progress" (insertAt 1 "-q" cmd) else cmd
  cmd

/-! ## The info-only display (src/ytgrab.py, main, lines 241-251) -/

/-- A Python value as the display code sees one field: a string or a
number. -/
inductive PyVal where
  | str (s : String)
  | int (n : Nat)
deriving DecidableEq

/-- Embedding of info.get for the view count: the number when the key is
present, the string Unknown otherwise. -/
def getViewCount (o : Option Nat) : PyVal :=
  match o with
  | some n => .int n
  | none => .str "Unknown"

/-- Insert a comma after every group of three digits, counting from the
right; the input digit list is most-significant first. -/
def commaGroupRev : List Char → List Char
  | a :: b :: c :: d :: rest => a :: b :: c :: ',' :: commaGroupRev (d :: rest)
  | l => l

/-- Embedding of the Python thousands-separator format of a nonnegative
integer, as the format spec comma produces it. -/
def fmtThousands (n : Nat) : String :=
  String.mk (commaGroupRev (Nat.toDigits 10 n).reverse).reverse

/-- Embedding of the Python builtin format with the comma format spec:
defined on numbers; on a string it raises ValueError (Python: cannot specify
a comma with type s), modelled as none. -/
def formatComma : PyVal → Option String
  | .int n => some (fmtThousands n)
  | .str _ => none

/-- Embedding of the Python slice s up to index n. -/
def pyTake (n : Nat) (s : String) : String := String.mk (s.data.take n)

/-- Embedding of the info-only display block (lines 243-250): one print per
field with a default for each missing key. Formatting the view count of a
record without that key applies the comma format spec to the string
placeholder, which raises ValueError: the run dies with a traceback before
the view-count line, modelled as an exit effect. -/
def info_report (info : Info) : List Effect :=
  let pre := [Effect.print "\n[VIDEO INFO]",
    Effect.print ("  Title: " ++ info.title.getD "Unknown"),
    Effect.print ("  Channel: " ++ info.channel.getD "Unknown"),
    Effect.print ("  Uploader: " ++ info.uploader.getD "Unknown"),
    Effect.print ("  Duration: " ++ info.duration_string.getD "Unknown"),
    Effect.print ("  Upload Date: " ++ info.upload_date.getD "Unknown")]
  match formatComma (getViewCount info.view_count) with
  | none => pre ++ [.exit 1]
  | some v => pre ++
      [.print ("  View Count: " ++ v),
       .print ("  Description: " ++ pyTake 200 (info.description.getD "None") ++ "...")]

/-! ## Metadata reporter (src/ytgrab.py, display_metadata, lines 155-184) -/

/-- Outcome of the ffprobe subprocess at the boundary: the executable is
absent (FileNotFoundError), the process exited nonzero
(CalledProcessError), its output fails to parse as JSON (JSONDecodeError),
or it parses and the format-tags lookup with empty-dict defaults yields the
given ordered key-value pairs. -/
inductive ProbeOutcome where
  | toolMissing
  | procFail
  | malformed (stdout : String)
  | parsed (tags : List (String × String))
deriving DecidableEq

/-- The ffprobe invocation of lines 160-166. -/
def ffprobe_cmd (filepath : String) : List String :=
  ["ffprobe", "-v", "quiet", "-print_format", "json", "-show_format", filepath]

/-- Python str.title over a character list: an alphabetic character is
uppercased when the previous character is not alphabetic and lowercased
otherwise (ASCII approximation of cased characters). -/
def titleAux : Bool → List Char → List Char
  | _, [] => []
  | prev, c :: t =>
      (if c.isAlpha then (if prev then c.toLower else c.toUpper) else c) ::
        titleAux c.isAlpha t

/-- Embedding of the key cleanup of line 176: replace underscores with
spaces, then apply str.title. -/
def humanize (k : String) : String :=
  String.mk (titleAux false (k.data.map (fun c => if c = '_' then ' ' else c)))

/-- The forty-dash separator line printed by display_metadata. -/
def dash40 : String := String.mk (List.replicate 40 '-')

/-- Embedding of display_metadata: header, the ffprobe invocation, then one
line per tag (with the humanized key), or a no-tags line, or the soft
warning when the tool is missing, the process failed or the output is
malformed; always the closing separator. The except clause of lines 181-182
catches all three failures, so no failure escapes. -/
def display_metadata (filepath : String) (p : ProbeOutcome) : List Effect :=
  [.print "\n[INFO] Embedded Metadata:", .print dash40,
   .run (ffprobe_cmd filepath)] ++
  (match p with
   | .parsed tags =>
      if tags.isEmpty then [.print "  No metadata tags found"]
      else tags.map (fun kv => .print ("  " ++ humanize kv.1 ++ ": " ++ kv.2))
   | _ => [.print "  (Could not read metadata - ffprobe may not be available)"]) ++
  [.print dash40]

/-! ## CLI sequencing (src/ytgrab.py, main, lines 187-272) -/

/-- The parsed command-line arguments. -/
structure Args where
  url : String
  output : String
  quality : String
  keep_thumbnail : Bool
  verbose : Bool
  info_only : Bool
deriving DecidableEq

/-- The outcomes of every external interaction one run can perform. -/
structure Env where
  ytdlp_ok : Bool
  ffmpeg_ok : Bool
  fetch : FetchOutcome
  download_ok : Bool
  files_after : List FileEntry
  probe : ProbeOutcome
deriving DecidableEq

/-- Substring test on character lists, as the Python in operator over
strings: some position of the second list starts with the first list. -/
def hasSubstr (sub : List Char) : List Char → Bool
  | [] => sub.isEmpty
  | l@(_ :: t) => sub.isPrefixOf l || hasSubstr sub t

/-- Embedding of the Python substring test sub in s. -/
def strContains (s sub : String) : Bool := hasSubstr sub.data s.data

/-- Embedding of download_audio (lines 80-152): create the directory, print
the progress line, run the constructed command; on a nonzero exit print and
exit 1; otherwise resolve the artifact, failing with a print and exit 1 when
no mp3 file exists, else return the most recently modified one. -/
def download_audio_trace (url output_dir quality : String)
    (keep_thumbnail verbose : Bool) (env : Env) :
    List Effect × Option FileEntry :=
  let pre := [Effect.mkdir output_dir,
    Effect.print ("[INFO] Downloading and converting to MP3 (" ++ quality ++ "kbps)..."),
    Effect.run (download_cmd url output_dir quality keep_thumbnail verbose)]
  if env.download_ok then
    match resolve_artifact env.files_after with
    | .error _ => (pre ++ [.print "[ERROR] MP3 file not found after download", .exit 1], none)
    | .ok f => (pre, some f)
  else
    (pre ++ [.print "[ERROR] Download failed: CalledProcessError", .exit 1], none)

/-- The fifty-equals banner line of lines 254-256. -/
def eq50 : String := String.mk (List.replicate 50 '=')

/-- The warning printed for a URL that contains neither youtube.com nor
youtu.be (line 238). -/
def urlWarning : String :=
  "[WARNING] URL doesn't appear to be a YouTube link. Proceeding anyway..."

/-- The steps of main after the dependency check and the URL warning: the
info-only branch (fetch, then the info display), or the download branch
(banner, acquisition, success lines, metadata report, done line). -/
def main_pipeline (a : Args) (env : Env) : List Effect :=
  if a.info_only then
    let fr := get_video_info_trace a.url env.fetch
    fr.1 ++ (match fr.2 with
      | none => []
      | some info => info_report info)
  else
    [Effect.print ("\n" ++ eq50),
     Effect.print "  ytgrab - YouTube to MP3 Archival Tool",
     Effect.print (eq50 ++ "\n")] ++
    (let dl := download_audio_trace a.url a.output a.quality a.keep_thumbnail a.verbose env
     dl.1 ++ (match dl.2 with
      | none => []
      | some f =>
        [Effect.print ("\n[SUCCESS] Downloaded: " ++ f.name),
         Effect.print ("[SUCCESS] Location: " ++ a.output ++ "/" ++ f.name)] ++
        display_metadata (a.output ++ "/" ++ f.name) env.probe ++
        [Effect.print "\n[DONE] Download complete!"]))

/-- Embedding of main (lines 187-272): the dependency check first, exiting
on missing tools; then the URL shape warning; then the pipeline. -/
def mainTrace (a : Args) (env : Env) : List Effect :=
  match check_dependencies env.ytdlp_ok env.ffmpeg_ok with
  | .error missing => deps_fail_prints missing ++ [.exit 1]
  | .ok _ =>
    (if !strContains a.url "youtube.com" && !strContains a.url "youtu.be"
      then [Effect.print urlWarning] else []) ++
    main_pipeline a env

/-! ## Theorems about the command construction, the probe and the fetch -/

/-- C2: the acquisition invocation is exactly the yt-dlp program name,
the quiet and progress flags exactly when not verbose, the audio-extraction,
format, quality, thumbnail-embedding, metadata-embedding, the three metadata
field mappings, thumbnail conversion, output template inside the requested
directory and no-overwrite options, the write-thumbnail flag exactly when
the thumbnail is kept, and the url last; moreover, for any url that is not
itself one of the three conditional flag strings, the write-thumbnail flag
is present iff the thumbnail is kept and the quiet and progress flags are
present iff not verbose. -/
theorem C2_command_construction (url output_dir quality : String) (kt vb : Bool) :
    download_cmd url output_dir quality kt vb =
      ["yt-dlp"] ++ (if vb then [] else ["-q", "--progress"]) ++
      ["-x", "--audio-format", "mp3", "--audio-quality", quality ++ "K",
       "--embed-thumbnail", "--embed-metadata", "--add-metadata",
       "--parse-metadata", "%(title)s:%(meta_title)s",
       "--parse-metadata", "%(uploader)s:%(meta_artist)s",
       "--parse-metadata", "%(channel)s:%(meta_album_artist)s",
       "--convert-thumbnails", "jpg",
       "-o", output_dir ++ "/" ++ "%(title)s.%(ext)s",
       "--no-overwrites"] ++
      (if kt then ["--write-thumbnail"] else []) ++ [url] ∧
    (url ∉ (["--write-thumbnail", "-q", "--progress"] : List String) →
      (("--write-thumbnail" ∈ download_cmd url output_dir quality kt vb) ↔ kt = true) ∧
      (("-q" ∈ download_cmd url output_dir quality kt vb) ↔ vb = false) ∧
      (("--progress" ∈ download_cmd url output_dir quality kt vb) ↔ vb = false)) := by
  constructor
  · cases kt <;> cases vb <;> rfl
  · intro hurl
    simp only [List.mem_cons, List.not_mem_nil, or_false, not_or] at hurl
    obtain ⟨hu1, hu2, hu3⟩ := hurl
    have hlastK : ∀ t : String, t.data.getLast? ≠ some 'K' → t ≠ quality ++ "K" := by
      intro t ht he
      have h := congrArg (fun s : String => s.data.getLast?) he
      simp only [String.data_append] at h
      rw [List.getLast?_append] at h
      simp at h
      exact ht (by rw [h])
    have hlastT : ∀ t : String, t.data.getLast? ≠ some 's' →
        t ≠ output_dir ++ "/" ++ "%(title)s.%(ext)s" := by
      intro t ht he
      have h := congrArg (fun s : String => s.data.getLast?) he
      simp only [String.data_append, List.append_assoc] at h
      rw [List.getLast?_append] at h
      simp at h
      exact ht (by rw [h])
    have hK1 : ("--write-thumbnail" : String) ≠ quality ++ "K" := hlastK _ (by decide)
    have hK2 : ("-q" : String) ≠ quality ++ "K" := hlastK _ (by decide)
    have hK3 : ("--progress" : String) ≠ quality ++ "K" := hlastK _ (by decide)
    have hT1 : ("--write-thumbnail" : String) ≠ output_dir ++ "/" ++ "%(title)s.%(ext)s" :=
      hlastT _ (by decide)
    have hT2 : ("-q" : String) ≠ output_dir ++ "/" ++ "%(title)s.%(ext)s" :=
      hlastT _ (by decide)
    have hT3 : ("--progress" : String) ≠ output_dir ++ "/" ++ "%(title)s.%(ext)s" := by
      intro he
      have h := congrArg (fun s : String => s.data.reverse.take 2) he
      simp only [String.data_append, List.reverse_append] at h
      rw [List.take_append_of_le_length (by decide)] at h
      exact absurd h (by decide)
    refine ⟨?_, ?_, ?_⟩ <;> cases kt <;> cases vb <;>
      simp [download_cmd, base_cmd, insertAt, output_template,
        hK1, hK2, hK3, hT1, hT2, hT3, Ne.symm hu1, Ne.symm hu2, Ne.symm hu3]

/-- C5: the probe fails exactly when a version query fails; the reported
list holds exactly the names of the failed tools; and on failure the whole
run performs no subprocess invocation beyond the probe itself and ends with
exit code 1, so no pipeline step executes. -/
theorem C5_dependency_probe (yt ff : Bool) :
    (check_dependencies yt ff = .ok () ↔ (yt = true ∧ ff = true)) ∧
    (∀ m, check_dependencies yt ff = .error m →
      (("yt-dlp" ∈ m ↔ yt = false) ∧ ("ffmpeg" ∈ m ↔ ff = false) ∧ m ≠ [])) ∧
    (∀ (a : Args) (env : Env), env.ytdlp_ok = yt → env.ffmpeg_ok = ff →
      (yt = false ∨ ff = false) →
      ((∀ c, Effect.run c ∉ mainTrace a env) ∧
       (mainTrace a env).getLast? = some (.exit 1))) := by
  refine ⟨?_, ?_, ?_⟩
  · cases yt <;> cases ff <;> simp [check_dependencies]
  · intro m h
    cases yt <;> cases ff <;> simp [check_dependencies] at h <;> subst h <;> decide
  · intro a env h1 h2 h3
    cases yt <;> cases ff
    · refine ⟨fun c => ?_, ?_⟩ <;>
        simp [mainTrace, check_dependencies, h1, h2, deps_fail_prints]
    · refine ⟨fun c => ?_, ?_⟩ <;>
        simp [mainTrace, check_dependencies, h1, h2, deps_fail_prints]
    · refine ⟨fun c => ?_, ?_⟩ <;>
        simp [mainTrace, check_dependencies, h1, h2, deps_fail_prints]
    · simp at h3

/-- C8: a nonzero exit of the metadata fetch process produces the
process-failure error line carrying the error-stream text and a fatal exit;
well-formed process success with unparseable output produces the distinct
parse-failure line and a fatal exit; and no error-stream text makes the two
failure lines coincide. -/
theorem C8_fetch_failure_modes (url stderr out : String) :
    (get_video_info_trace url (.procFail stderr)).1 =
      [.print "[INFO] Fetching video metadata...", .run (fetch_cmd url),
       .print ("[ERROR] Failed to fetch video info: " ++ stderr), .exit 1] ∧
    (get_video_info_trace url (.procFail stderr)).2 = none ∧
    (get_video_info_trace url (.malformed out)).1 =
      [.print "[INFO] Fetching video metadata...", .run (fetch_cmd url),
       .print "[ERROR] Failed to parse video metadata", .exit 1] ∧
    (get_video_info_trace url (.malformed out)).2 = none ∧
    (∀ s : String,
      ("[ERROR] Failed to fetch video info: " ++ s) ≠ "[ERROR] Failed to parse video metadata") := by
  refine ⟨rfl, rfl, rfl, rfl, ?_⟩
  intro s he
  have h := congrArg (fun t : String => t.data.take 36) he
  simp only [String.data_append] at h
  rw [List.take_append_of_le_length (by decide)] at h
  exact absurd h (by decide)

/-- Two strings differ when the first's fixed prefix disagrees with the
second, whatever the appended tail. -/
theorem string_append_ne {a b : String} (s : String)
    (h : a.data ≠ b.data.take a.data.length) : a ++ s ≠ b := by
  intro he
  apply h
  have hd := congrArg (fun t : String => t.data.take a.data.length) he
  simp only [String.data_append, List.take_left] at hd
  exact hd

/-- A fetched metadata record with every optional field absent, as parsing
an empty JSON object produces. -/
def emptyInfo : Info := ⟨none, none, none, none, none, none, none⟩

/-- C6: the info-only display of a record with no view-count field prints
the placeholder lines for the first five fields and then dies: the comma
format spec is applied to the string placeholder Unknown, which raises
ValueError, so the view-count and description lines are never printed and
the run exits abnormally instead of degrading to a placeholder. -/
theorem C6_missing_view_count_crash :
    info_report emptyInfo =
      [.print "\n[VIDEO INFO]", .print "  Title: Unknown", .print "  Channel: Unknown",
       .print "  Uploader: Unknown", .print "  Duration: Unknown",
       .print "  Upload Date: Unknown", .exit 1] ∧
    (∀ s, Effect.print ("  View Count: " ++ s) ∉ info_report emptyInfo) := by
  refine ⟨rfl, fun s h => ?_⟩
  simp [info_report, emptyInfo, getViewCount, formatComma] at h
  rcases h with h | h | h | h | h | h <;> exact string_append_ne s (by decide) h

/-- C7: the metadata reporter never exits: for every probe outcome the
display runs to its closing separator; on a missing tool, a failed process
or malformed output it prints the soft warning; and after a successful
download the run always reaches the final done line, whatever the probe
outcome. -/
theorem C7_reporter_never_fatal (filepath : String) (p : ProbeOutcome) :
    (∀ n, Effect.exit n ∉ display_metadata filepath p) ∧
    ((p = .toolMissing ∨ p = .procFail ∨ (∃ s, p = .malformed s)) →
      Effect.print "  (Could not read metadata - ffprobe may not be available)" ∈
        display_metadata filepath p) ∧
    ((display_metadata filepath p).getLast? = some (.print dash40)) ∧
    (∀ (a : Args) (env : Env), a.info_only = false → env.ytdlp_ok = true →
      env.ffmpeg_ok = true → env.download_ok = true →
      (∃ f, resolve_artifact env.files_after = .ok f) →
      Effect.print "\n[DONE] Download complete!" ∈ mainTrace a env) := by
  refine ⟨?_, ?_, ?_, ?_⟩
  · intro n hmem
    cases p with
    | toolMissing => simp [display_metadata] at hmem
    | procFail => simp [display_metadata] at hmem
    | malformed s => simp [display_metadata] at hmem
    | parsed tags =>
      by_cases htags : tags.isEmpty
      · simp [display_metadata, htags] at hmem
      · simp [display_metadata, htags, List.mem_map] at hmem
  · intro h
    cases p with
    | toolMissing => simp [display_metadata]
    | procFail => simp [display_metadata]
    | malformed s => simp [display_metadata]
    | parsed tags =>
      rcases h with h | h | ⟨s, h⟩ <;> exact absurd h (by simp)
  · unfold display_metadata
    exact List.getLast?_concat _
  · intro a env hio hyt hff hdl ⟨f, hf⟩
    have hpipe : Effect.print "\n[DONE] Download complete!" ∈ main_pipeline a env := by
      simp [main_pipeline, hio, download_audio_trace, hdl, hf]
    rw [mainTrace]
    simp [check_dependencies, hyt, hff]
    exact Or.inr hpipe

/-- C9: in info-only mode the run writes nothing: it creates no directory
and every subprocess it invokes runs in no-download mode; and when the
fetched record has every field, the printed summary has the title, channel,
uploader, duration and upload-date lines, the view count formatted with the
thousands separator, and the description truncated to 200 characters
followed by an ellipsis. -/
theorem C9_info_only (a : Args) (env : Env) (info : Info)
    (t c u ds ud d : String) (n : Nat)
    (hio : a.info_only = true) (hyt : env.ytdlp_ok = true) (hff : env.ffmpeg_ok = true)
    (hfetch : env.fetch = .parsed info)
    (ht : info.title = some t) (hc : info.channel = some c) (hu : info.uploader = some u)
    (hds : info.duration_string = some ds) (hud : info.upload_date = some ud)
    (hn : info.view_count = some n) (hd : info.description = some d) :
    (∀ cmd, Effect.run cmd ∈ mainTrace a env → "--no-download" ∈ cmd) ∧
    (∀ dir, Effect.mkdir dir ∉ mainTrace a env) ∧
    Effect.print ("  Title: " ++ t) ∈ mainTrace a env ∧
    Effect.print ("  Channel: " ++ c) ∈ mainTrace a env ∧
    Effect.print ("  Uploader: " ++ u) ∈ mainTrace a env ∧
    Effect.print ("  Duration: " ++ ds) ∈ mainTrace a env ∧
    Effect.print ("  Upload Date: " ++ ud) ∈ mainTrace a env ∧
    Effect.print ("  View Count: " ++ fmtThousands n) ∈ mainTrace a env ∧
    Effect.print ("  Description: " ++ pyTake 200 d ++ "...") ∈ mainTrace a env := by
  have htrace : mainTrace a env =
      (if !strContains a.url "youtube.com" && !strContains a.url "youtu.be"
        then [Effect.print urlWarning] else []) ++
      ([Effect.print "[INFO] Fetching video metadata...", Effect.run (fetch_cmd a.url)] ++
        ([Effect.print "\n[VIDEO INFO]",
          Effect.print ("  Title: " ++ t),
          Effect.print ("  Channel: " ++ c),
          Effect.print ("  Uploader: " ++ u),
          Effect.print ("  Duration: " ++ ds),
          Effect.print ("  Upload Date: " ++ ud)] ++
         [Effect.print ("  View Count: " ++ fmtThousands n),
          Effect.print ("  Description: " ++ pyTake 200 d ++ "...")])) := by
    rw [mainTrace]
    simp only [check_dependencies, hyt, hff]
    rw [main_pipeline]
    simp only [hio, if_pos, get_video_info_trace, hfetch]
    simp [info_report, ht, hc, hu, hds, hud, hn, hd, getViewCount, formatComma]
  refine ⟨?_, ?_, ?_, ?_, ?_, ?_, ?_, ?_, ?_⟩
  · intro cmd hcmd
    rw [htrace] at hcmd
    rcases List.mem_append.mp hcmd with h | h
    · split at h <;> simp at h
    · simp at h
      subst h
      simp [fetch_cmd]
  · intro dir hdir
    rw [htrace] at hdir
    rcases List.mem_append.mp hdir with h | h
    · split at h <;> simp at h
    · simp at h
  all_goals rw [htrace]
  all_goals refine List.mem_append_right _ ?_
  all_goals simp

/-- A concrete info-only invocation with a complete metadata record. -/
def argsInfoOnly : Args :=
  ⟨"https://example.org/v", "./downloads", "192", false, false, true⟩

/-- The complete metadata record of the concrete info-only run. -/
def fullInfo : Info :=
  ⟨some "My Song", some "My Channel", some "Uploader", some "3:51",
   some "20240101", some 1234567, some "A description"⟩

/-- The environment of the concrete info-only run. -/
def envInfoOnly : Env :=
  ⟨true, true, .parsed fullInfo, true, [], .toolMissing⟩

/-- C9 witness: the info-only theorem applied at the concrete run, with
every hypothesis discharged there. -/
theorem C9_info_only_witness :
    (∀ cmd, Effect.run cmd ∈ mainTrace argsInfoOnly envInfoOnly → "--no-download" ∈ cmd) ∧
    (∀ dir, Effect.mkdir dir ∉ mainTrace argsInfoOnly envInfoOnly) ∧
    Effect.print ("  Title: " ++ "My Song") ∈ mainTrace argsInfoOnly envInfoOnly ∧
    Effect.print ("  Channel: " ++ "My Channel") ∈ mainTrace argsInfoOnly envInfoOnly ∧
    Effect.print ("  Uploader: " ++ "Uploader") ∈ mainTrace argsInfoOnly envInfoOnly ∧
    Effect.print ("  Duration: " ++ "3:51") ∈ mainTrace argsInfoOnly envInfoOnly ∧
    Effect.print ("  Upload Date: " ++ "20240101") ∈ mainTrace argsInfoOnly envInfoOnly ∧
    Effect.print ("  View Count: " ++ fmtThousands 1234567) ∈ mainTrace argsInfoOnly envInfoOnly ∧
    Effect.print ("  Description: " ++ pyTake 200 "A description" ++ "...") ∈
      mainTrace argsInfoOnly envInfoOnly :=
  C9_info_only argsInfoOnly envInfoOnly fullInfo
    "My Song" "My Channel" "Uploader" "3:51" "20240101" "A description" 1234567
    rfl rfl rfl rfl rfl rfl rfl rfl rfl rfl rfl

/-- Effects other than printed lines. -/
def notPrint : Effect → Bool
  | .print _ => false
  | _ => true

/-- C10: when the dependency check passes, a URL containing neither
youtube.com nor youtu.be only prepends the single warning line to the very
pipeline a youtube URL gets: the trace is the warning followed by the
pipeline, a matching URL yields the pipeline alone, and the non-print
effects of the run are those of the pipeline in either case. -/
theorem C10_url_shape_only_warns (a : Args) (env : Env) :
    (env.ytdlp_ok = true → env.ffmpeg_ok = true →
      strContains a.url "youtube.com" = false → strContains a.url "youtu.be" = false →
      mainTrace a env = Effect.print urlWarning :: main_pipeline a env) ∧
    (env.ytdlp_ok = true → env.ffmpeg_ok = true →
      (strContains a.url "youtube.com" = true ∨ strContains a.url "youtu.be" = true) →
      mainTrace a env = main_pipeline a env) ∧
    (env.ytdlp_ok = true → env.ffmpeg_ok = true →
      (mainTrace a env).filter notPrint = (main_pipeline a env).filter notPrint) := by
  refine ⟨?_, ?_, ?_⟩
  · intro h1 h2 hc1 hc2
    rw [mainTrace]
    simp [check_dependencies, h1, h2, hc1, hc2]
  · intro h1 h2 hc
    rw [mainTrace]
    rcases hc with hc | hc <;> simp [check_dependencies, h1, h2, hc]
  · intro h1 h2
    have hts : mainTrace a env =
        (if !strContains a.url "youtube.com" && !strContains a.url "youtu.be"
          then [Effect.print urlWarning] else []) ++ main_pipeline a env := by
      rw [mainTrace]
      simp [check_dependencies, h1, h2]
    rw [hts, List.filter_append]
    split <;> simp [notPrint]

end Ytgrab
